import Mathlib

/-!
Verification of the live-odds pricing, settlement and ledger core of the
`football-ai-live` repository.  Python floats are modelled as exact rationals
(`ℚ`) and the real-valued Poisson pricing layer over `ℝ`; Python's
`round(x, 2)` (and the `"%.2f"` formatting used by the quarter-line detector)
is modelled by rounding to the nearest integer number of hundredths.
All definitions are transcribed from the source files
`paper_trading.py`, `main.py` and `live_engine.py`.
-/

namespace FootballAI

/-- Bet selection sides as they appear in the recommendation records and
order dictionaries (`"Home" / "Away"` for Asian handicap,
`"Over" / "Under"` for totals). -/
inductive BetSide where
  | Home
  | Away
  | Over
  | Under
deriving DecidableEq, Repr

/-- Settlement outcome written into `rec["result"]` by
`settle_one_hdp_record` / `settle_one_ou_record` (main.py). -/
inductive HdpResult where
  | Win
  | HalfWin
  | Push
  | HalfLoss
  | Loss
deriving DecidableEq, Repr

/-- Model of Python `round(x, 2)`: round to the nearest hundredth
(the tie-breaking direction only matters exactly at half-cent ties,
which the repository's quarter-point lines never produce). -/
def round2 (q : ℚ) : ℚ := (round (q * 100) : ℤ) / 100

/-- `is_handicap_is_double` (main.py lines 135-147): detect a quarter line by
formatting the fractional part with two decimals and testing whether the
tenths digit is `2` or `7`; a quarter line is split into the two adjacent
half lines `hdp_abs ± 0.25`. -/
def is_handicap_is_double (hdp_abs : ℚ) : Bool × ℚ × ℚ :=
  let tail : ℚ := hdp_abs - ⌊hdp_abs⌋
  let first_char : ℤ := (round (tail * 100) / 10) % 10
  if first_char = 2 ∨ first_char = 7 then
    (true, hdp_abs - 1/4, hdp_abs + 1/4)
  else
    (false, hdp_abs, 0)

/-- `settle_one_handicap` (main.py lines 149-175): compare the
selection-relative goal delta since placement against the line-derived
compare value (`hand = 1` favoured side, `hand = 2` underdog side,
`hand = 0` level) with a `1e-5` tolerance. -/
def settle_one_handicap (hdp_abs : ℚ) (hand : ℕ)
    (final_home_score final_away_score bet_home_score bet_away_score : ℤ)
    (selection : BetSide) (score_value : ℚ) : ℚ :=
  let compare_value : ℚ :=
    if hand = 1 then hdp_abs else if hand = 2 then -hdp_abs else 0
  let one_detla : ℤ :=
    if selection = BetSide.Home then final_home_score - bet_home_score
    else final_away_score - bet_away_score
  let two_delta : ℤ :=
    if selection = BetSide.Home then final_away_score - bet_away_score
    else final_home_score - bet_home_score
  let delta : ℚ := ((one_detla - two_delta : ℤ) : ℚ)
  if delta > compare_value + 1/100000 then score_value
  else if delta < compare_value - 1/100000 then -score_value
  else 0

/-- `settle_one_hdp_record` (main.py lines 179-230): classify an
Asian-handicap recommendation record.  The score parsing of
`rec["score_at_rec"]` is abstracted into the `bet_home_score` /
`bet_away_score` arguments; the record fields `selection` and `handicap`
are passed explicitly.  Quarter lines are split into the two adjacent half
lines, each settled at weight `0.5`; the summed score is classified with a
`1e-5` tolerance, and a sum matching none of the five buckets leaves the
result unset (`none`). -/
def settle_one_hdp_record (selection : BetSide) (hdp : ℚ)
    (bet_home_score bet_away_score final_home_sore final_away_score : ℤ) :
    Option HdpResult :=
  let hdp_abs : ℚ := round2 |hdp|
  let d := is_handicap_is_double hdp_abs
  let is_double := d.1
  let first := d.2.1
  let second := d.2.2
  let hand : ℕ :=
    if hdp < -(1/100000) then
      (if selection = BetSide.Home then 1 else 2)
    else if hdp > 1/100000 then
      (if selection = BetSide.Home then 2 else 1)
    else 0
  let total_score : ℚ :=
    if is_double then
      settle_one_handicap first hand final_home_sore final_away_score
        bet_home_score bet_away_score selection (1/2) +
      settle_one_handicap second hand final_home_sore final_away_score
        bet_home_score bet_away_score selection (1/2)
    else
      settle_one_handicap hdp hand final_home_sore final_away_score
        bet_home_score bet_away_score selection 1
  if |total_score - 1| < 1/100000 then some HdpResult.Win
  else if |total_score - 1/2| < 1/100000 then some HdpResult.HalfWin
  else if |total_score| < 1/100000 then some HdpResult.Push
  else if |total_score + 1/2| < 1/100000 then some HdpResult.HalfLoss
  else if |total_score + 1| < 1/100000 then some HdpResult.Loss
  else none

/-- `settle_one_ou` (main.py lines 232-246): settle one Over/Under leg
against the final total goals with a `1e-5` tolerance around the line. -/
def settle_one_ou (hdp total_goals : ℚ) (selection : BetSide)
    (score_value : ℚ) : ℚ :=
  if selection = BetSide.Over then
    if total_goals > hdp + 1/100000 then score_value
    else if total_goals < hdp - 1/100000 then -score_value
    else 0
  else
    if total_goals < hdp - 1/100000 then score_value
    else if total_goals > hdp + 1/100000 then -score_value
    else 0

/-- Market kind stored in the order's selection dict (`"type"` field):
`"AH"` for Asian handicap, `"OU"` for totals (main.py order placement). -/
inductive SelType where
  | AH
  | OU
deriving DecidableEq, Repr

/-- Order selection dict (paper_trading.py `place_order` docstring and the
`sel_info` dicts built in main.py): market type, line and side.  The
`start_score` and `desc` fields are display-only and omitted. -/
structure Selection where
  stype : SelType
  line : ℚ
  side : BetSide
deriving DecidableEq, Repr

/-- An active order held by `PaperTrader` (paper_trading.py lines 79-89);
`stake` is stored rounded to two decimals by `place_order`. -/
structure Order where
  match_id : ℕ
  selection : Selection
  odds : ℚ
  stake : ℚ
deriving DecidableEq, Repr

/-- Ledger entry type strings used by paper_trading.py. -/
inductive LType where
  | INIT
  | BET
  | WIN
  | LOSS
  | PUSH
  | HALF_WIN
  | HALF_LOSS
  | VOID
deriving DecidableEq, Repr

/-- A ledger entry (`_add_ledger_entry`): the code persists `amount` and
`balance` rounded via `round(_, 2)`; `amount_exact` is a ghost field holding
the amount before that display rounding (it is not stored by the code and
is used only to state conservation of the unrounded cash flows). -/
structure LedgerEntry where
  ltype : LType
  amount : ℚ
  balance : ℚ
  amount_exact : ℚ
deriving DecidableEq, Repr

/-- The mutable `PaperTrader` state: bankroll, active order list and the
newest-first ledger. -/
structure PTState where
  bankroll : ℚ
  active_orders : List Order
  ledger : List LedgerEntry
deriving DecidableEq, Repr

/-- `PaperTrader.reset`: fresh bankroll and a single `INIT` ledger entry
holding the (unrounded) initial bankroll. -/
def reset (initial_bankroll : ℚ) : PTState :=
  { bankroll := initial_bankroll
    active_orders := []
    ledger := [{ ltype := LType.INIT, amount := initial_bankroll
                 balance := initial_bankroll
                 amount_exact := initial_bankroll }] }

/-- Build the entry written by `_add_ledger_entry` (paper_trading.py lines
142-149): amount and running balance are recorded rounded to two decimals. -/
def mk_ledger_entry (lt : LType) (amount bankroll : ℚ) : LedgerEntry :=
  { ltype := lt, amount := round2 amount, balance := round2 bankroll
    amount_exact := amount }

/-- `_add_ledger_entry` list update: insert newest-first, then drop the
oldest entry if the ledger exceeds 1000 entries. -/
def ledger_insert (e : LedgerEntry) (led : List LedgerEntry) :
    List LedgerEntry :=
  let l := e :: led
  if l.length > 1000 then l.dropLast else l

/-- `PaperTrader.place_order` (paper_trading.py lines 60-102): reject when
any active order has the same `match_id`, when the stake is below the
minimum of 10, or when it exceeds the bankroll; otherwise record the order
(stake rounded to two decimals), deduct the unrounded stake from the
bankroll and write a `BET` ledger entry.  Also returns the list of ledger
entries written by the call. -/
def place_order (st : PTState) (match_id : ℕ) (sel : Selection)
    (odds stake_pct : ℚ) : PTState × Bool × List LedgerEntry :=
  if st.active_orders.any (fun o => o.match_id == match_id) then
    (st, false, [])
  else
    let stake_amount := st.bankroll * (stake_pct / 100)
    if stake_amount < 10 then (st, false, [])
    else if stake_amount > st.bankroll then (st, false, [])
    else
      let order : Order :=
        { match_id := match_id, selection := sel, odds := odds
          stake := round2 stake_amount }
      let b2 := st.bankroll - stake_amount
      let e := mk_ledger_entry LType.BET (-stake_amount) b2
      ({ bankroll := b2, active_orders := st.active_orders ++ [order]
         ledger := ledger_insert e st.ledger }, true, [e])

/-- `PaperTrader._calculate_pnl` (paper_trading.py lines 155-190): only the
`AH` selection type is handled, the bet is always evaluated Home-relative
from the final score alone (`val = (h - a) + line`), and any selection that
matches no branch — in particular every `OU` selection — is voided. -/
def calculate_pnl (order : Order) (h a : ℤ) : ℚ × LType :=
  let sel := order.selection
  let stk := order.stake
  let odds := order.odds
  if sel.stype = SelType.AH then
    let diff : ℚ := ((h - a : ℤ) : ℚ)
    let val := diff + sel.line
    if val ≥ 1/2 then (stk * (odds - 1), LType.WIN)
    else if val ≤ -(1/2) then (-stk, LType.LOSS)
    else if |val| < 1/100 then (0, LType.PUSH)
    else if |val - 1/4| < 1/100 then (stk / 2 * (odds - 1), LType.HALF_WIN)
    else if |val + 1/4| < 1/100 then (-stk / 2, LType.HALF_LOSS)
    else (0, LType.VOID)
  else (0, LType.VOID)

/-- Result of the settlement loop in `PaperTrader.settle_match`. -/
structure SettleRes where
  bankroll : ℚ
  ledger : List LedgerEntry
  remaining : List Order
  written : List LedgerEntry
deriving DecidableEq, Repr

/-- The loop body of `PaperTrader.settle_match` (paper_trading.py lines
111-137): for each active order on the match, compute the PnL, credit
`stake + pnl` to the bankroll when positive, write a ledger entry holding
`stake + pnl`, and drop the order from the active set.  `written` collects
the entries written by this call, newest first. -/
def settleOrders (match_id : ℕ) (score_home score_away : ℤ) :
    List Order → ℚ → List LedgerEntry → SettleRes
  | [], b, led => { bankroll := b, ledger := led, remaining := [], written := [] }
  | o :: rest, b, led =>
    if o.match_id = match_id then
      let p := calculate_pnl o score_home score_away
      let return_amount := o.stake + p.1
      let b2 := if return_amount > 0 then b + return_amount else b
      let e := mk_ledger_entry p.2 return_amount b2
      let r := settleOrders match_id score_home score_away rest b2 (ledger_insert e led)
      { r with written := r.written ++ [e] }
    else
      let r := settleOrders match_id score_home score_away rest b led
      { r with remaining := o :: r.remaining }

/-- `PaperTrader.settle_match` (paper_trading.py lines 104-140). -/
def settle_match (st : PTState) (match_id : ℕ) (score_home score_away : ℤ) :
    PTState × List LedgerEntry :=
  let r := settleOrders match_id score_home score_away st.active_orders
    st.bankroll st.ledger
  ({ bankroll := r.bankroll, active_orders := r.remaining
     ledger := r.ledger }, r.written)

/-- A successful-API-call trace element for the ledger claims: either a
`place_order` or a `settle_match` invocation. -/
inductive Op where
  | place (match_id : ℕ) (sel : Selection) (odds stake_pct : ℚ)
  | settle (match_id : ℕ) (score_home score_away : ℤ)

/-- Apply one trader operation; also return the ledger entries it wrote. -/
def applyOp (st : PTState) : Op → PTState × List LedgerEntry
  | Op.place mid sel odds pct =>
    let r := place_order st mid sel odds pct
    (r.1, r.2.2)
  | Op.settle mid h a => settle_match st mid h a

/-- Run a trace of trader operations, collecting every written entry. -/
def runOps : PTState → List Op → PTState × List LedgerEntry
  | st, [] => (st, [])
  | st, op :: rest =>
    let r := applyOp st op
    let r2 := runOps r.1 rest
    (r2.1, r2.2 ++ r.2)

/-- Decimal odds attached to `place` operations are nonnegative (decimal
odds quoted by the market are in fact always ≥ 1). -/
def opOddsOk : Op → Prop
  | Op.place _ _ odds _ => 0 ≤ odds
  | Op.settle _ _ _ => True

/-- Trader-state invariant: every active order carries a nonnegative stake
and nonnegative odds (every order accepted by `place_order` has stake ≥ 10,
and odds are nonnegative by `opOddsOk`). -/
def StakesOk (st : PTState) : Prop :=
  ∀ o ∈ st.active_orders, 0 ≤ o.stake ∧ 0 ≤ o.odds

/-- Trader-state invariant: the newest ledger entry records the current
bankroll rounded to two decimals. -/
def HeadBal (st : PTState) : Prop :=
  st.ledger.head?.map (fun e => e.balance) = some (round2 st.bankroll)

/-- Trust levels returned by `ConsensusOracle.validate` (live_engine.py). -/
inductive Trust where
  | HIGH_CONSENSUS
  | SINGLE_SOURCE
  | CONFLICT_SCORE
  | CONFLICT_RED_CARD
deriving DecidableEq, Repr

/-- The part of a feed packet inspected by `ConsensusOracle.validate`:
the `goals.home` / `goals.away` fields, either of which may be missing. -/
structure Packet where
  goals_home : Option ℤ
  goals_away : Option ℤ
deriving DecidableEq, Repr

/-- The goal pair extracted by `validate`: if either component is `None`
the whole pair is replaced by `(0, 0)` (live_engine.py lines 541-543). -/
def packet_goals (p : Packet) : ℤ × ℤ :=
  if p.goals_home = none ∨ p.goals_away = none then (0, 0)
  else (p.goals_home.getD 0, p.goals_away.getD 0)

/-- `ConsensusOracle.validate` (live_engine.py lines 527-562): with no
secondary source, return the primary packet at SINGLE_SOURCE trust; with a
secondary source, a scoreline disagreement returns no dataset at
CONFLICT_SCORE, otherwise the primary packet at HIGH_CONSENSUS. -/
def validate (match_id : ℕ) (primary_packet : Packet)
    (secondary_packet : Option Packet) : Option Packet × Trust :=
  match secondary_packet with
  | none => (some primary_packet, Trust.SINGLE_SOURCE)
  | some s =>
    if packet_goals primary_packet ≠ packet_goals s then
      (none, Trust.CONFLICT_SCORE)
    else (some primary_packet, Trust.HIGH_CONSENSUS)

/-- Control skeleton of the per-fixture consensus gating in the poll loop
(main.py lines 1113-1141 and the later order placement): on CONFLICT_SCORE
the loop appends an error card and `continue`s, so neither pricing nor
`place_order` is reached for that fixture; otherwise order placement is
driven by the edge check. -/
def poll_places_order (match_id : ℕ) (primary_packet : Packet)
    (secondary_packet : Option Packet) (edge_clears : Bool) : Bool :=
  match (validate match_id primary_packet secondary_packet).2 with
  | Trust.CONFLICT_SCORE => false
  | _ => edge_clears

/-- `KellyStaking.calculate_stake` (live_engine.py lines 472-504),
parameterized by the policy constants `fraction` (default 0.25) and
`max_stake` (default 0.05); returns a bankroll percentage rounded to two
decimals. -/
def calculate_stake (fraction max_stake model_prob market_odds : ℚ) : ℚ :=
  if market_odds ≤ 101/100 ∨ model_prob ≤ 0 then 0
  else
    let b := market_odds - 1
    let p := model_prob
    let q := 1 - p
    let full_kelly := (b * p - q) / b
    if full_kelly ≤ 0 then 0
    else
      let rec_stake := full_kelly * fraction
      let final_stake := min rec_stake max_stake
      round2 (final_stake * 100)

/-- Per-fixture tracking record of `LatencyGuard` (live_engine.py):
last seen score and the wall-clock time of the last score change. -/
structure MatchTrack where
  last_score : ℤ × ℤ
  last_event_ts : ℚ
deriving DecidableEq, Repr

/-- `LatencyGuard` state: the latency/freeze policy constants and the
per-fixture dictionary `match_states`, modelled as an association list. -/
structure GuardState where
  max_latency : ℚ
  freeze_time : ℚ
  match_states : List (ℕ × MatchTrack)
deriving DecidableEq, Repr

/-- Dictionary lookup in the `match_states` association list. -/
def lookupTrack : List (ℕ × MatchTrack) → ℕ → Option MatchTrack
  | [], _ => none
  | (k, v) :: rest, mid => if k = mid then some v else lookupTrack rest mid

/-- Dictionary insert/overwrite in the `match_states` association list. -/
def updateTrack : List (ℕ × MatchTrack) → ℕ → MatchTrack →
    List (ℕ × MatchTrack)
  | [], mid, t => [(mid, t)]
  | (k, v) :: rest, mid, t =>
    if k = mid then (k, t) :: rest else (k, v) :: updateTrack rest mid t

/-- `LatencyGuard.check_safety` (live_engine.py lines 412-454): reject
stale data (`now - data_timestamp > max_latency`); on first sight of a
fixture record its score with `last_event_ts = 0` and report safe; on a
score change record the event time and report unsafe; report unsafe while
within the freeze window of the last event; otherwise safe.  `now` (the
wall clock read by `time.time()`) is passed explicitly. -/
def check_safety (g : GuardState) (now : ℚ) (match_id : ℕ)
    (current_score : ℤ × ℤ) (data_timestamp : ℚ) : Bool × GuardState :=
  let latency := now - data_timestamp
  if latency > g.max_latency then (false, g)
  else
    match lookupTrack g.match_states match_id with
    | none =>
      let t : MatchTrack := { last_score := current_score, last_event_ts := 0 }
      (true, { g with match_states := updateTrack g.match_states match_id t })
    | some st =>
      if current_score ≠ st.last_score then
        let t : MatchTrack :=
          { last_score := current_score, last_event_ts := now }
        (false, { g with match_states := updateTrack g.match_states match_id t })
      else if now - st.last_event_ts < g.freeze_time then (false, g)
      else (true, g)

/-- `LivePricing.calculate_1x2_probs` (live_engine.py lines 937-964): sum
the joint mass `h_pmf[h] * a_pmf[a]` over the truncated 10×10 grid of
additional goals (`range(max_goals)` with `max_goals = 10`), bucketing each
cell by comparing the implied final scores `cur + goals`.  The Poisson
weights `poisson.pmf(i, lam)` are abstracted into the `h_pmf` / `a_pmf`
arguments so that the grid accumulation is stated over any commutative
semiring; the theorems instantiate them with the real Poisson weights. -/
def calculate_1x2_probs {R : Type} [CommSemiring R] (h_pmf a_pmf : ℕ → R)
    (cur_h cur_a : ℤ) : R × R × R :=
  let grid := Finset.range 10 ×ˢ Finset.range 10
  ((∑ x ∈ grid.filter
      (fun x => cur_h + (x.1 : ℤ) > cur_a + (x.2 : ℤ)),
      h_pmf x.1 * a_pmf x.2),
   (∑ x ∈ grid.filter
      (fun x => cur_h + (x.1 : ℤ) = cur_a + (x.2 : ℤ)),
      h_pmf x.1 * a_pmf x.2),
   (∑ x ∈ grid.filter
      (fun x => cur_a + (x.2 : ℤ) > cur_h + (x.1 : ℤ)),
      h_pmf x.1 * a_pmf x.2))

/-- Keys of the `LEAGUE_VOLATILITY` dict (live_engine.py lines 252-277);
the Chinese long/short aliases mapping to the same value are merged into a
single constructor, and the substring matching of the lookup loop is
modelled as an exact enum lookup. -/
inductive League where
  | Bundesliga
  | Eredivisie
  | ALeague
  | Eliteserien
  | Allsvenskan
  | MLS
  | SwissSuperLeague
  | Ligue2
  | SerieB
  | SegundaDivision
  | ArgPrimera
  | GreekSuperLeague
  | BrasileiraoA
  | RPL
  | PremierLeague
  | LaLiga
  | SerieA
  | Ligue1
deriving DecidableEq, Repr

/-- The `LEAGUE_VOLATILITY` values (live_engine.py lines 252-277). -/
def LEAGUE_VOLATILITY : League → ℚ
  | League.Bundesliga => 23/20
  | League.Eredivisie => 6/5
  | League.ALeague => 23/20
  | League.Eliteserien => 28/25
  | League.Allsvenskan => 11/10
  | League.MLS => 11/10
  | League.SwissSuperLeague => 28/25
  | League.Ligue2 => 17/20
  | League.SerieB => 17/20
  | League.SegundaDivision => 22/25
  | League.ArgPrimera => 17/20
  | League.GreekSuperLeague => 41/50
  | League.BrasileiraoA => 9/10
  | League.RPL => 9/10
  | League.PremierLeague => 21/20
  | League.LaLiga => 49/50
  | League.SerieA => 51/50
  | League.Ligue1 => 19/20

/-- Keys of the `REFEREE_STYLES` dict (live_engine.py lines 299-306). -/
inductive Referee where
  | AnthonyTaylor
  | MichaelOliver
  | MateuLahoz
  | DanieleOrsato
  | SzymonMarciniak
  | ClementTurpin
deriving DecidableEq, Repr

/-- The `penalty` trait of each `REFEREE_STYLES` entry. -/
def REFEREE_PENALTY : Referee → ℚ
  | Referee.AnthonyTaylor => 6/5
  | Referee.MichaelOliver => 11/10
  | Referee.MateuLahoz => 7/5
  | Referee.DanieleOrsato => 9/10
  | Referee.SzymonMarciniak => 13/10
  | Referee.ClementTurpin => 11/10

/-- Keys of the `MOTIVATION_FACTORS` dict (live_engine.py lines 316-323). -/
inductive Motivation where
  | TITLE_RACE
  | RELEGATION
  | EUROPE_SPOT
  | MID_TABLE
  | FRIENDLY
  | DERBY
deriving DecidableEq, Repr

/-- The `MOTIVATION_FACTORS` values. -/
def MOTIVATION_FACTORS : Motivation → ℚ
  | Motivation.TITLE_RACE => 28/25
  | Motivation.RELEGATION => 27/25
  | Motivation.EUROPE_SPOT => 21/20
  | Motivation.MID_TABLE => 9/10
  | Motivation.FRIENDLY => 17/20
  | Motivation.DERBY => 11/10

/-- Tactical styles (live_engine.py lines 346-351). -/
inductive Style where
  | POSSESSION
  | COUNTER
  | HIGH_PRESS
  | LOW_BLOCK
  | BALANCED
deriving DecidableEq, Repr

/-- The `CLASH_MATRIX` dict (live_engine.py lines 365-382): pairs of styles
mapped to a pair of multipliers; missing pairs yield `none` (the code's
`dict.get` default handling). -/
def CLASH_MATRIX : Style → Style → Option (ℚ × ℚ)
  | Style.POSSESSION, Style.COUNTER => some (19/20, 23/20)
  | Style.COUNTER, Style.POSSESSION => some (23/20, 19/20)
  | Style.POSSESSION, Style.LOW_BLOCK => some (22/25, 9/10)
  | Style.LOW_BLOCK, Style.POSSESSION => some (9/10, 22/25)
  | Style.HIGH_PRESS, Style.POSSESSION => some (28/25, 23/25)
  | Style.POSSESSION, Style.HIGH_PRESS => some (23/25, 28/25)
  | Style.HIGH_PRESS, Style.LOW_BLOCK => some (21/20, 9/10)
  | Style.LOW_BLOCK, Style.HIGH_PRESS => some (9/10, 21/20)
  | Style.COUNTER, Style.HIGH_PRESS => some (11/10, 11/10)
  | Style.HIGH_PRESS, Style.COUNTER => some (11/10, 11/10)
  | _, _ => none

/-- Weather classes of the `WEATHER_IMPACT` dict (live_engine.py lines
384-391). -/
inductive Weather where
  | RAIN
  | HEAVY_RAIN
  | SNOW
  | HEAT
  | PERFECT
deriving DecidableEq, Repr

/-- The `WEATHER_IMPACT` values. -/
def WEATHER_IMPACT : Weather → ℚ
  | Weather.RAIN => 21/20
  | Weather.HEAVY_RAIN => 9/10
  | Weather.SNOW => 17/20
  | Weather.HEAT => 23/25
  | Weather.PERFECT => 1

/-- Keys of the `FORTRESS_BONUS` dict (live_engine.py lines 394-401). -/
inductive FortressTeam where
  | Liverpool
  | Dortmund
  | Galatasaray
  | BocaJuniors
  | Napoli
  | ManUtd
  | RealMadrid
deriving DecidableEq, Repr

/-- The `FORTRESS_BONUS` values. -/
def FORTRESS_BONUS : FortressTeam → ℚ
  | FortressTeam.Liverpool => 23/20
  | FortressTeam.Dortmund => 23/20
  | FortressTeam.Galatasaray => 6/5
  | FortressTeam.BocaJuniors => 59/50
  | FortressTeam.Napoli => 28/25
  | FortressTeam.ManUtd => 21/20
  | FortressTeam.RealMadrid => 11/10

/-- `KEY_PLAYER_PENALTY = 0.82` (live_engine.py line 294). -/
def KEY_PLAYER_PENALTY : ℚ := 41/50

/-- `FATIGUE_MAX_ATT_DROP = 0.85` (live_engine.py line 312). -/
def FATIGUE_MAX_ATT_DROP : ℚ := 17/20

/-- `FATIGUE_MAX_DEF_LEAK = 1.15` (live_engine.py line 313). -/
def FATIGUE_MAX_DEF_LEAK : ℚ := 23/20

/-- `LEAGUE_VOLATILITY` lookup with default 1.0 (fuzzy name matching of
the source abstracted to an exact optional key). -/
def league_vol_lookup : Option League → ℚ
  | none => 1
  | some l => LEAGUE_VOLATILITY l

/-- Referee penalty modifier: dynamic `referee_stats['penalty']` if
supplied, else the static `REFEREE_STYLES` table, else 1.0
(live_engine.py lines 801-811). -/
def ref_modifier_lookup : Option ℚ → Option Referee → ℚ
  | some pen, _ => pen
  | none, some r => REFEREE_PENALTY r
  | none, none => 1

/-- `MOTIVATION_FACTORS.get(key, 1.0)`. -/
def motivation_lookup : Option Motivation → ℚ
  | some m => MOTIVATION_FACTORS m
  | none => 1

/-- `CLASH_MATRIX.get((h_style, a_style))` with default `(1, 1)`, applied
only when both styles are known (live_engine.py lines 833-842). -/
def style_clash_lookup : Option Style → Option Style → ℚ × ℚ
  | some hs, some bs => (CLASH_MATRIX hs bs).getD (1, 1)
  | _, _ => (1, 1)

/-- `FORTRESS_BONUS` lookup with default 1.0 (fuzzy team-name matching
abstracted to an exact optional key). -/
def fortress_lookup : Option FortressTeam → ℚ
  | some t => FORTRESS_BONUS t
  | none => 1

/-- `LivePricing.get_remaining_xg` (live_engine.py lines 723-862), with
the constructor state `pre_match_xg_home/away` passed as the first two
arguments.  The full multiplicative factor chain is transcribed: time
fraction, late-game intensity, transformer momentum, xT, game state,
league volatility, key-player penalty, referee modifier, fatigue cross
terms, motivation, style clash, weather and the home-only fortress bonus.
No clamping of the resulting rates is performed anywhere. -/
def get_remaining_xg (base_home_xg base_away_xg : ℚ) (minute : ℤ)
    (home_factor away_factor : ℚ) (current_score : ℤ × ℤ)
    (league_name : Option League)
    (home_missing_keys away_missing_keys : Bool)
    (referee_name : Option Referee) (referee_stats : Option ℚ)
    (home_fatigue away_fatigue : ℚ)
    (home_motivation_type away_motivation_type : Option Motivation)
    (home_style away_style : Option Style) (weather_type : Weather)
    (home_team_name : Option FortressTeam)
    (home_transformer_mom away_transformer_mom : ℚ)
    (home_xt away_xt : ℚ) : ℚ × ℚ :=
  let time_remaining : ℤ := 90 - minute
  if time_remaining ≤ 0 then (0, 0)
  else
    let time_frac : ℚ := (time_remaining : ℚ) / 90
    let intensity_mult : ℚ :=
      if minute > 75 then 6/5
      else if minute > 40 ∧ minute ≤ 45 then 11/10
      else 1
    let t_home_mult : ℚ := 1 + min home_transformer_mom 10 / 50
    let t_away_mult : ℚ := 1 + min away_transformer_mom 10 / 50
    let xt_home_mult : ℚ := 1 + min home_xt 5 / 10
    let xt_away_mult : ℚ := 1 + min away_xt 5 / 10
    let score_diff := current_score.1 - current_score.2
    let gs_home_mult : ℚ :=
      if minute > 60 then
        (if score_diff < 0 then
          (if score_diff = -1 then 23/20
           else if score_diff = -2 then 11/10 else 1)
         else if score_diff > 0 then 9/10 else 1)
      else 1
    let gs_away_mult : ℚ :=
      if minute > 60 then
        (if score_diff < 0 then 9/10
         else if score_diff > 0 then
          (if score_diff = 1 then 23/20
           else if score_diff = 2 then 11/10 else 1)
         else 1)
      else 1
    let league_volatility := league_vol_lookup league_name
    let star_penalty_home : ℚ :=
      if home_missing_keys then KEY_PLAYER_PENALTY else 1
    let star_penalty_away : ℚ :=
      if away_missing_keys then KEY_PLAYER_PENALTY else 1
    let ref_modifier := ref_modifier_lookup referee_stats referee_name
    let h_att_mod : ℚ := 1 - home_fatigue * (1 - FATIGUE_MAX_ATT_DROP)
    let h_def_mod : ℚ := 1 + home_fatigue * (FATIGUE_MAX_DEF_LEAK - 1)
    let a_att_mod : ℚ := 1 - away_fatigue * (1 - FATIGUE_MAX_ATT_DROP)
    let a_def_mod : ℚ := 1 + away_fatigue * (FATIGUE_MAX_DEF_LEAK - 1)
    let h_mot_mod := motivation_lookup home_motivation_type
    let a_mot_mod := motivation_lookup away_motivation_type
    let style_mods := style_clash_lookup home_style away_style
    let weather_mod := WEATHER_IMPACT weather_type
    let fortress_mod := fortress_lookup home_team_name
    (base_home_xg * time_frac * home_factor * intensity_mult *
       gs_home_mult * league_volatility * star_penalty_home * ref_modifier *
       h_att_mod * a_def_mod * h_mot_mod * style_mods.1 * weather_mod *
       fortress_mod * t_home_mult * xt_home_mult,
     base_away_xg * time_frac * away_factor * intensity_mult *
       gs_away_mult * league_volatility * star_penalty_away * ref_modifier *
       a_att_mod * h_def_mod * a_mot_mod * style_mods.2 * weather_mod *
       t_away_mult * xt_away_mult)

end FootballAI

namespace FootballAI

/-- C3: settling an Asian-Handicap record with line −0.75, selection Home,
score at placement 0–0 and final score 1–0 splits the bet into the two
adjacent half-lines −0.5 and −1.0 (represented by their absolute values
0.5 and 1.0 with `hand = 1`), settles each at half weight (the −0.5 half a
win worth +0.5, the −1.0 half a push worth 0), and classifies the combined
score 0.5 as Half Win. -/
theorem C3_quarter_line_worked_example :
    is_handicap_is_double (3/4) = (true, 1/2, 1) ∧
    settle_one_handicap (1/2) 1 1 0 0 0 BetSide.Home (1/2) = 1/2 ∧
    settle_one_handicap 1 1 1 0 0 0 BetSide.Home (1/2) = 0 ∧
    settle_one_hdp_record BetSide.Home (-(3/4)) 0 0 1 0 =
      some HdpResult.HalfWin := by
  refine ⟨?_, ?_, ?_, ?_⟩ <;>
    norm_num [is_handicap_is_double, settle_one_handicap,
      settle_one_hdp_record, round2, round_eq, abs]

/-- C2: if an open order for a given (fixture, market kind, line, side)
tuple is active, a second `place_order` call for the same fixture, market
kind, line and side is rejected and leaves the bankroll, the active-order
set and the ledger unchanged (the code in fact rejects on the fixture id
alone, which is stricter). -/
theorem C2_duplicate_order_rejected (st : PTState) (mid : ℕ)
    (sel : Selection) (odds stake_pct : ℚ) (o : Order)
    (hmem : o ∈ st.active_orders) (hmid : o.match_id = mid)
    (hty : o.selection.stype = sel.stype)
    (hline : o.selection.line = sel.line)
    (hside : o.selection.side = sel.side) :
    place_order st mid sel odds stake_pct = (st, false, []) := by
  have hany : st.active_orders.any (fun o => o.match_id == mid) = true :=
    List.any_eq_true.2 ⟨o, hmem, by simp [hmid]⟩
  unfold place_order
  simp [hany]

/-- Witness for C2 at a concrete trader state holding one open order. -/
theorem C2_duplicate_order_rejected_witness :
    place_order
      { bankroll := 1000
        active_orders := [{ match_id := 7
                            selection := { stype := SelType.AH, line := -(1/2)
                                           side := BetSide.Home }
                            odds := 2, stake := 100 }]
        ledger := [{ ltype := LType.INIT, amount := 1000, balance := 1000
                     amount_exact := 1000 }] }
      7 { stype := SelType.AH, line := -(1/2), side := BetSide.Home } 2 3 =
      ({ bankroll := 1000
         active_orders := [{ match_id := 7
                             selection := { stype := SelType.AH, line := -(1/2)
                                            side := BetSide.Home }
                             odds := 2, stake := 100 }]
         ledger := [{ ltype := LType.INIT, amount := 1000, balance := 1000
                      amount_exact := 1000 }] }, false, []) := by
  apply C2_duplicate_order_rejected _ _ _ _ _
    { match_id := 7
      selection := { stype := SelType.AH, line := -(1/2), side := BetSide.Home }
      odds := 2, stake := 100 } (by simp) rfl rfl rfl rfl

/-- C1 counterexample: two successful `place_order` calls whose stakes
(10.006 and 10.008 monetary units) are not whole numbers of cents.  The
bankroll is debited the exact stakes, but the ledger records the deltas and
balances rounded to two decimals, so the final bankroll (9979.986) differs
from the initial bankroll plus the sum of the recorded ledger deltas
(9979.98), and the newest entry's recorded balance (9979.99) differs from
the previous entry's balance plus the newest entry's recorded delta
(9979.98).  This refutes exact ledger conservation as claimed. -/
theorem C1_ledger_conservation_counterexample :
    let sel : Selection :=
      { stype := SelType.AH, line := -(1/2), side := BetSide.Home }
    let st0 := reset 10000
    let r1 := place_order st0 1 sel 2 (5003/50000)
    let r2 := place_order r1.1 2 sel 2 (166800/1664999)
    let written := r2.2.2 ++ r1.2.2
    r1.2.1 = true ∧ r2.2.1 = true ∧
    r2.1.bankroll ≠ 10000 + (written.map (fun e => e.amount)).sum ∧
    (r2.1.ledger.getD 0 (mk_ledger_entry LType.VOID 0 0)).balance ≠
      (r2.1.ledger.getD 1 (mk_ledger_entry LType.VOID 0 0)).balance +
      (r2.1.ledger.getD 0 (mk_ledger_entry LType.VOID 0 0)).amount := by
  norm_num [reset, place_order, mk_ledger_entry, ledger_insert, round2,
    round_eq]

/-- Rounding to two decimals is monotone. -/
theorem round2_mono {x y : ℚ} (h : x ≤ y) : round2 x ≤ round2 y := by
  unfold round2
  have h2 : round (x * 100) ≤ round (y * 100) := by
    rw [round_eq, round_eq]
    exact Int.floor_mono (by linarith)
  have h3 : ((round (x * 100) : ℤ) : ℚ) ≤ ((round (y * 100) : ℤ) : ℚ) := by
    exact_mod_cast h2
  linarith

/-- Inserting a ledger entry always leaves it as the newest entry, also
when the 1000-entry cap drops the oldest one. -/
theorem ledger_insert_head (e : LedgerEntry) (led : List LedgerEntry) :
    (ledger_insert e led).head? = some e := by
  simp only [ledger_insert]
  cases led with
  | nil => norm_num
  | cons x xs => split_ifs <;> simp

/-- The amount credited back at settlement, `stake + pnl`, is never
negative for an order with nonnegative stake and odds. -/
theorem pnl_ret_nonneg (o : Order) (h a : ℤ) (hs : 0 ≤ o.stake)
    (ho : 0 ≤ o.odds) : 0 ≤ o.stake + (calculate_pnl o h a).1 := by
  simp only [calculate_pnl]
  split_ifs <;> simp <;> nlinarith [mul_nonneg hs ho]

/-- One `place_order` call preserves the order invariants and the
head-balance invariant, and changes the bankroll by exactly the sum of the
unrounded amounts of the entries it writes. -/
theorem place_order_flow (st : PTState) (mid : ℕ) (sel : Selection)
    (odds pct : ℚ) (ho : 0 ≤ odds) (hs : StakesOk st) (hb : HeadBal st) :
    StakesOk (place_order st mid sel odds pct).1 ∧
    HeadBal (place_order st mid sel odds pct).1 ∧
    (place_order st mid sel odds pct).1.bankroll =
      st.bankroll + (((place_order st mid sel odds pct).2.2).map
        (fun e => e.amount_exact)).sum := by
  simp only [place_order]
  split_ifs with h1 h2 h3
  · exact ⟨hs, hb, by simp⟩
  · exact ⟨hs, hb, by simp⟩
  · exact ⟨hs, hb, by simp⟩
  · push_neg at h2 h3
    refine ⟨?_, ?_, ?_⟩
    · intro o hmem
      rcases List.mem_append.1 hmem with hold | hnew
      · exact hs o hold
      · have hstake : (0:ℚ) ≤ st.bankroll * (pct / 100) := by linarith
        have h0 : round2 0 ≤ round2 (st.bankroll * (pct / 100)) :=
          round2_mono hstake
        have hz : round2 0 = 0 := by norm_num [round2]
        simp only [List.mem_singleton] at hnew
        subst hnew
        exact ⟨by rw [hz] at h0; simpa using h0, ho⟩
    · show (ledger_insert _ _).head?.map _ = _
      rw [ledger_insert_head]
      rfl
    · simp [mk_ledger_entry]
      ring

/-- The settlement loop preserves the order invariants and the
head-balance invariant, and changes the bankroll by exactly the sum of the
unrounded amounts of the entries it writes. -/
theorem settleOrders_flow (mid : ℕ) (sh sa : ℤ) (orders : List Order) :
    ∀ (b : ℚ) (led : List LedgerEntry),
      (∀ o ∈ orders, 0 ≤ o.stake ∧ 0 ≤ o.odds) →
      led.head?.map (fun e => e.balance) = some (round2 b) →
      (∀ o ∈ (settleOrders mid sh sa orders b led).remaining,
          0 ≤ o.stake ∧ 0 ≤ o.odds) ∧
      (settleOrders mid sh sa orders b led).ledger.head?.map
          (fun e => e.balance) =
        some (round2 (settleOrders mid sh sa orders b led).bankroll) ∧
      (settleOrders mid sh sa orders b led).bankroll =
        b + (((settleOrders mid sh sa orders b led).written).map
          (fun e => e.amount_exact)).sum := by
  induction orders with
  | nil =>
    intro b led hs hb
    refine ⟨by simp [settleOrders], ?_, by simp [settleOrders]⟩
    simpa [settleOrders] using hb
  | cons o rest ih =>
    intro b led hs hb
    have hso : 0 ≤ o.stake ∧ 0 ≤ o.odds := hs o (List.mem_cons_self o rest)
    have hsrest : ∀ o2 ∈ rest, 0 ≤ o2.stake ∧ 0 ≤ o2.odds := by
      intro o2 h2
      exact hs o2 (List.mem_cons_of_mem o h2)
    by_cases hm : o.match_id = mid
    · have hret : 0 ≤ o.stake + (calculate_pnl o sh sa).1 :=
        pnl_ret_nonneg o sh sa hso.1 hso.2
      simp only [settleOrders, hm, if_true]
      set ret := o.stake + (calculate_pnl o sh sa).1 with hret_def
      set b2 := if ret > 0 then b + ret else b with hb2_def
      have hb2 : b2 = b + ret := by
        rw [hb2_def]
        split_ifs with hgt
        · rfl
        · push_neg at hgt
          have : ret = 0 := le_antisymm hgt hret
          rw [this, add_zero]
      set e := mk_ledger_entry (calculate_pnl o sh sa).2 ret b2 with he_def
      have hih := ih b2 (ledger_insert e led) hsrest
        (by rw [ledger_insert_head]; simp [he_def, mk_ledger_entry])
      refine ⟨hih.1, hih.2.1, ?_⟩
      rw [hih.2.2, hb2]
      simp [he_def, mk_ledger_entry]
      ring
    · simp only [settleOrders, hm, if_false]
      have hih := ih b led hsrest hb
      refine ⟨?_, hih.2.1, hih.2.2⟩
      intro o2 h2
      rcases List.mem_cons.1 h2 with h2 | h2
      · exact h2 ▸ hso
      · exact hih.1 o2 h2

/-- Running any trace of trader operations preserves the invariants and
changes the bankroll by exactly the total unrounded cash flow written to
the ledger. -/
theorem runOps_flow : ∀ (ops : List Op) (st : PTState),
    StakesOk st → HeadBal st → (∀ op ∈ ops, opOddsOk op) →
    StakesOk (runOps st ops).1 ∧ HeadBal (runOps st ops).1 ∧
    (runOps st ops).1.bankroll =
      st.bankroll + ((runOps st ops).2.map (fun e => e.amount_exact)).sum := by
  intro ops
  induction ops with
  | nil =>
    intro st hs hb _
    exact ⟨hs, hb, by simp [runOps]⟩
  | cons op rest ih =>
    intro st hs hb hok
    have hokop : opOddsOk op := hok op (List.mem_cons_self op rest)
    have hokrest : ∀ op2 ∈ rest, opOddsOk op2 := by
      intro op2 h2
      exact hok op2 (List.mem_cons_of_mem op h2)
    have hstep : StakesOk (applyOp st op).1 ∧ HeadBal (applyOp st op).1 ∧
        (applyOp st op).1.bankroll = st.bankroll +
          ((applyOp st op).2.map (fun e => e.amount_exact)).sum := by
      cases op with
      | place mid sel odds pct =>
        simpa [applyOp] using place_order_flow st mid sel odds pct hokop hs hb
      | settle mid h a =>
        have := settleOrders_flow mid h a st.active_orders st.bankroll
          st.ledger hs hb
        simpa [applyOp, settle_match, StakesOk, HeadBal] using this
    have hih := ih (applyOp st op).1 hstep.1 hstep.2.1 hokrest
    simp only [runOps]
    refine ⟨hih.1, hih.2.1, ?_⟩
    rw [hih.2.2, hstep.2.2]
    simp
    ring

/-- C1 (amended): the bankroll itself is conserved exactly with respect to
the unrounded cash flows: after any trace of `place_order` / `settle_match`
calls from a freshly reset trader, the final bankroll equals the initial
bankroll plus the sum of the unrounded amounts of all ledger entries
written after initialization, and the newest ledger entry always records
the current bankroll rounded to two decimals.  (The recorded ledger deltas
and balances are rounded to two decimals, so the claimed identities hold
for the recorded values only up to sub-cent rounding.) -/
theorem C1_ledger_conservation_amended (b0 : ℚ) (ops : List Op)
    (hb0 : round2 b0 = b0) (hodds : ∀ op ∈ ops, opOddsOk op) :
    (runOps (reset b0) ops).1.bankroll =
      b0 + ((runOps (reset b0) ops).2.map (fun e => e.amount_exact)).sum ∧
    (runOps (reset b0) ops).1.ledger.head?.map (fun e => e.balance) =
      some (round2 (runOps (reset b0) ops).1.bankroll) := by
  have h := runOps_flow ops (reset b0)
    (by intro o ho; simp [reset] at ho)
    (by simp [reset, HeadBal, hb0]) hodds
  exact ⟨by simpa [reset] using h.2.2, h.2.1⟩

/-- Witness for the amended C1 at a concrete one-order trace. -/
theorem C1_ledger_conservation_amended_witness :
    (runOps (reset 10000)
        [Op.place 1 { stype := SelType.AH, line := -(1/2)
                      side := BetSide.Home } 2 1]).1.bankroll =
      10000 + ((runOps (reset 10000)
        [Op.place 1 { stype := SelType.AH, line := -(1/2)
                      side := BetSide.Home } 2 1]).2.map
          (fun e => e.amount_exact)).sum ∧
    (runOps (reset 10000)
        [Op.place 1 { stype := SelType.AH, line := -(1/2)
                      side := BetSide.Home } 2 1]).1.ledger.head?.map
        (fun e => e.balance) =
      some (round2 (runOps (reset 10000)
        [Op.place 1 { stype := SelType.AH, line := -(1/2)
                      side := BetSide.Home } 2 1]).1.bankroll) :=
  C1_ledger_conservation_amended 10000 _
    (by norm_num [round2, round_eq])
    (by intro op hop
        simp only [List.mem_singleton] at hop
        subst hop
        norm_num [opOddsOk])

/-- C4 counterexample: an Away wager on home line −0.5, placed at 0–0, with
final score 1–0.  The claimed rule (selection-relative delta against the
line-derived compare value, as the repository itself implements it in
`settle_one_hdp_record`) scores this a Loss, but the money ledger's
`_calculate_pnl` ignores the selection side and the placement score,
evaluates everything Home-relative, and pays the bet as a full Win of
`stake * (odds - 1) = +100`. -/
theorem C4_selection_ignored_counterexample :
    calculate_pnl
      { match_id := 1
        selection := { stype := SelType.AH, line := -(1/2)
                       side := BetSide.Away }
        odds := 2, stake := 100 } 1 0 = (100, LType.WIN) ∧
    settle_one_hdp_record BetSide.Away (-(1/2)) 0 0 1 0 =
      some HdpResult.Loss := by
  constructor
  · norm_num [calculate_pnl]
  · have hne : BetSide.Away ≠ BetSide.Home := by decide
    norm_num [settle_one_hdp_record, settle_one_handicap,
      is_handicap_is_double, round2, round_eq, abs, hne]

/-- C4 (amended): for every half-integer line, stake, odds, final score and
selection side, the money-ledger settlement `_calculate_pnl` applies the
Win/Loss/Push trichotomy to the Home-relative final-score difference
`delta = h - a` compared against `-line`, ignoring the selection side and
the score at placement: `delta > -line` pays `stake * (odds - 1)` (Win),
`delta < -line` forfeits the stake (Loss), and equality returns the stake
(Push, zero net). -/
theorem C4_money_ledger_settlement_amended (mid : ℕ) (side : BetSide)
    (line stake odds : ℚ) (h a : ℤ) (k : ℤ) (hline : line = k / 2) :
    (((h - a : ℤ) : ℚ) > -line →
      calculate_pnl { match_id := mid
                      selection := { stype := SelType.AH, line := line
                                     side := side }
                      odds := odds, stake := stake } h a =
        (stake * (odds - 1), LType.WIN)) ∧
    (((h - a : ℤ) : ℚ) < -line →
      calculate_pnl { match_id := mid
                      selection := { stype := SelType.AH, line := line
                                     side := side }
                      odds := odds, stake := stake } h a =
        (-stake, LType.LOSS)) ∧
    (((h - a : ℤ) : ℚ) = -line →
      calculate_pnl { match_id := mid
                      selection := { stype := SelType.AH, line := line
                                     side := side }
                      odds := odds, stake := stake } h a =
        (0, LType.PUSH)) := by
  subst hline
  refine ⟨?_, ?_, ?_⟩
  · intro hd
    have hz : (0 : ℤ) < 2 * (h - a) + k := by
      have : ((2 * (h - a) + k : ℤ) : ℚ) > 0 := by push_cast at hd ⊢; linarith
      exact_mod_cast this
    have h1 : (1 : ℤ) ≤ 2 * (h - a) + k := hz
    have hge : ((h - a : ℤ) : ℚ) + k / 2 ≥ 1 / 2 := by
      have : ((2 * (h - a) + k : ℤ) : ℚ) ≥ 1 := by exact_mod_cast h1
      push_cast at this ⊢
      linarith
    simp only [calculate_pnl]
    split_ifs <;> first | rfl | (exfalso; linarith)
  · intro hd
    have hz : 2 * (h - a) + k < 0 := by
      have : ((2 * (h - a) + k : ℤ) : ℚ) < 0 := by push_cast at hd ⊢; linarith
      exact_mod_cast this
    have h1 : 2 * (h - a) + k ≤ -1 := by omega
    have hle : ((h - a : ℤ) : ℚ) + k / 2 ≤ -(1 / 2) := by
      have : ((2 * (h - a) + k : ℤ) : ℚ) ≤ -1 := by exact_mod_cast h1
      push_cast at this ⊢
      linarith
    simp only [calculate_pnl]
    split_ifs <;> first | rfl | (exfalso; linarith)
  · intro hd
    have hv0 : ((h - a : ℤ) : ℚ) + k / 2 = 0 := by linarith
    have habs : |((h - a : ℤ) : ℚ) + k / 2| < 1 / 100 := by
      rw [hv0]
      norm_num
    simp only [calculate_pnl]
    split_ifs <;>
      first
        | rfl
        | (exfalso; linarith)
        | (exfalso
           rw [hv0] at habs
           linarith)

/-- Witness for the amended C4: a Home −0.5 wager, final score 1–0, is a
full Win paying `stake * (odds - 1)`. -/
theorem C4_money_ledger_settlement_amended_witness :
    ((1 - 0 : ℤ) : ℚ) > -(-(1/2)) ∧
    calculate_pnl { match_id := 1
                    selection := { stype := SelType.AH, line := -(1/2)
                                   side := BetSide.Home }
                    odds := 2, stake := 100 } 1 0 =
      ((100 : ℚ) * ((2 : ℚ) - 1), LType.WIN) :=
  ⟨by norm_num,
   (C4_money_ledger_settlement_amended 1 BetSide.Home (-(1/2)) 100 2 1 0
      (-1) (by norm_num)).1 (by norm_num)⟩

/-- C5 counterexample: an Over 2.5 wager at odds 2 with stake 100 and final
score 3–0 (total 3, a winning totals bet by the repository's own rule
`settle_one_ou`).  The money ledger's `_calculate_pnl` handles only the
`AH` selection type, so the wager is settled as VOID: `settle_match`
credits back exactly the stake (bankroll 0 → 100), not `stake * odds`
(200) as the claim requires for a winning totals wager. -/
theorem C5_ou_void_counterexample :
    calculate_pnl
      { match_id := 1
        selection := { stype := SelType.OU, line := 5/2
                       side := BetSide.Over }
        odds := 2, stake := 100 } 3 0 = (0, LType.VOID) ∧
    settle_one_ou (5/2) 3 BetSide.Over 1 = 1 ∧
    (settle_match
      { bankroll := 0
        active_orders := [{ match_id := 1
                            selection := { stype := SelType.OU, line := 5/2
                                           side := BetSide.Over }
                            odds := 2, stake := 100 }]
        ledger := [{ ltype := LType.INIT, amount := 0, balance := 0
                     amount_exact := 0 }] } 1 3 0).1.bankroll = 100 ∧
    (100 : ℚ) ≠ 100 * 2 := by
  have hne : SelType.OU ≠ SelType.AH := by decide
  refine ⟨by norm_num [calculate_pnl, hne], by norm_num [settle_one_ou], ?_,
    by norm_num⟩
  norm_num [settle_match, settleOrders, calculate_pnl, hne, mk_ledger_entry,
    ledger_insert, round2, round_eq]

/-- C5 (amended): the money ledger voids every Over/Under selection,
returning exactly the stake with zero net; the Win/Push/Loss totals rule of
the claim is implemented by the recommendation-history settlement
`settle_one_ou` (main.py): for a quarter-point line and an integer final
total, Over wins exactly when `total > line`, loses exactly when
`total < line`, and pushes on equality, with Under mirrored. -/
theorem C5_ou_settlement_amended (o : Order) (h a : ℤ)
    (hou : o.selection.stype = SelType.OU)
    (line : ℚ) (total : ℤ) (sv : ℚ) (k : ℤ) (hline : line = k / 4) :
    calculate_pnl o h a = (0, LType.VOID) ∧
    ((total : ℚ) > line → settle_one_ou line total BetSide.Over sv = sv) ∧
    ((total : ℚ) < line → settle_one_ou line total BetSide.Over sv = -sv) ∧
    ((total : ℚ) = line → settle_one_ou line total BetSide.Over sv = 0) ∧
    ((total : ℚ) < line → settle_one_ou line total BetSide.Under sv = sv) ∧
    ((total : ℚ) > line → settle_one_ou line total BetSide.Under sv = -sv) ∧
    ((total : ℚ) = line → settle_one_ou line total BetSide.Under sv = 0) := by
  subst hline
  have hov : BetSide.Over = BetSide.Over := rfl
  have hun : BetSide.Under ≠ BetSide.Over := by decide
  have hgt : ∀ hgt : (total : ℚ) > (k : ℚ) / 4,
      (total : ℚ) > (k : ℚ) / 4 + 1 / 100000 := by
    intro hgt
    have hz : (0 : ℤ) < 4 * total - k := by
      have : ((4 * total - k : ℤ) : ℚ) > 0 := by push_cast at hgt ⊢; linarith
      exact_mod_cast this
    have h1 : (1 : ℤ) ≤ 4 * total - k := hz
    have : ((4 * total - k : ℤ) : ℚ) ≥ 1 := by exact_mod_cast h1
    push_cast at this ⊢
    linarith
  have hlt : ∀ hlt : (total : ℚ) < (k : ℚ) / 4,
      (total : ℚ) < (k : ℚ) / 4 - 1 / 100000 := by
    intro hlt
    have hz : 4 * total - k < 0 := by
      have : ((4 * total - k : ℤ) : ℚ) < 0 := by push_cast at hlt ⊢; linarith
      exact_mod_cast this
    have h1 : 4 * total - k ≤ -1 := by omega
    have : ((4 * total - k : ℤ) : ℚ) ≤ -1 := by exact_mod_cast h1
    push_cast at this ⊢
    linarith
  refine ⟨by simp [calculate_pnl, hou], ?_, ?_, ?_, ?_, ?_, ?_⟩
  · intro hc
    unfold settle_one_ou
    rw [if_pos hov, if_pos (hgt hc)]
  · intro hc
    unfold settle_one_ou
    rw [if_pos hov, if_neg (by rw [not_lt]; linarith [hlt hc]),
      if_pos (hlt hc)]
  · intro hc
    unfold settle_one_ou
    rw [if_pos hov, if_neg (by rw [not_lt, hc]; linarith),
      if_neg (by rw [not_lt, hc]; linarith)]
  · intro hc
    unfold settle_one_ou
    rw [if_neg hun, if_pos (hlt hc)]
  · intro hc
    unfold settle_one_ou
    rw [if_neg hun, if_neg (by rw [not_lt]; linarith [hgt hc]),
      if_pos (hgt hc)]
  · intro hc
    unfold settle_one_ou
    rw [if_neg hun, if_neg (by rw [not_lt, hc]; linarith),
      if_neg (by rw [not_lt, hc]; linarith)]

/-- Witness for the amended C5: the Over 2.5 order is voided by the money
ledger, and `settle_one_ou` scores total 3 over line 2.5 as a win. -/
theorem C5_ou_settlement_amended_witness :
    calculate_pnl
      { match_id := 1
        selection := { stype := SelType.OU, line := 5/2
                       side := BetSide.Over }
        odds := 2, stake := 100 } 3 0 = (0, LType.VOID) ∧
    settle_one_ou (5/2) ((3 : ℤ) : ℚ) BetSide.Over 1 = 1 := by
  have hmain := C5_ou_settlement_amended
    { match_id := 1
      selection := { stype := SelType.OU, line := 5/2, side := BetSide.Over }
      odds := 2, stake := 100 } 3 0 rfl (5/2) 3 1 10 (by norm_num)
  exact ⟨hmain.1, hmain.2.1 (by norm_num)⟩

/-- C6: when a secondary packet is supplied whose (home, away) goal counts
differ from the primary's, `validate` returns no dataset with trust level
CONFLICT_SCORE, and the poll loop then places no order for the fixture
regardless of whether the edge clears threshold; when the secondary packet
is absent, `validate` returns the primary packet at SINGLE_SOURCE trust. -/
theorem C6_consensus_conflict_gating (mid : ℕ) (p s : Packet)
    (ph pa sh sa : ℤ)
    (hp1 : p.goals_home = some ph) (hp2 : p.goals_away = some pa)
    (hs1 : s.goals_home = some sh) (hs2 : s.goals_away = some sa)
    (hne : (ph, pa) ≠ (sh, sa)) :
    validate mid p (some s) = (none, Trust.CONFLICT_SCORE) ∧
    (∀ edge_clears : Bool,
      poll_places_order mid p (some s) edge_clears = false) ∧
    (∀ (mid2 : ℕ) (p2 : Packet),
      validate mid2 p2 none = (some p2, Trust.SINGLE_SOURCE)) := by
  have hgp : packet_goals p = (ph, pa) := by simp [packet_goals, hp1, hp2]
  have hgs : packet_goals s = (sh, sa) := by simp [packet_goals, hs1, hs2]
  have hg : packet_goals p ≠ packet_goals s := by
    rw [hgp, hgs]
    exact hne
  refine ⟨by simp [validate, hg], ?_, by intro mid2 p2; simp [validate]⟩
  intro edge_clears
  simp [poll_places_order, validate, hg]

/-- Witness for C6: primary reports 1–0, secondary reports 0–0. -/
theorem C6_consensus_conflict_gating_witness :
    validate 9 { goals_home := some 1, goals_away := some 0 }
        (some { goals_home := some 0, goals_away := some 0 }) =
      (none, Trust.CONFLICT_SCORE) ∧
    (∀ edge_clears : Bool,
      poll_places_order 9 { goals_home := some 1, goals_away := some 0 }
        (some { goals_home := some 0, goals_away := some 0 }) edge_clears =
        false) ∧
    (∀ (mid2 : ℕ) (p2 : Packet),
      validate mid2 p2 none = (some p2, Trust.SINGLE_SOURCE)) :=
  C6_consensus_conflict_gating 9
    { goals_home := some 1, goals_away := some 0 }
    { goals_home := some 0, goals_away := some 0 }
    1 0 0 0 rfl rfl rfl rfl (by decide)

/-- The Kelly stake percentage is never negative (for nonnegative policy
constants). -/
theorem calculate_stake_nonneg (fraction max_stake p q : ℚ)
    (hf : 0 ≤ fraction) (hm : 0 ≤ max_stake) :
    0 ≤ calculate_stake fraction max_stake p q := by
  simp only [calculate_stake]
  split_ifs with h1 h2
  · exact le_rfl
  · exact le_rfl
  · push_neg at h2
    have hrec : 0 ≤ ((q - 1) * p - (1 - p)) / (q - 1) * fraction :=
      mul_nonneg (le_of_lt h2) hf
    have hmin : 0 ≤ min (((q - 1) * p - (1 - p)) / (q - 1) * fraction)
        max_stake := le_min hrec hm
    have h0 : round2 0 ≤ round2 (min (((q - 1) * p - (1 - p)) / (q - 1) *
        fraction) max_stake * 100) := round2_mono (by linarith)
    have hz : round2 0 = 0 := by norm_num [round2]
    rw [hz] at h0
    exact h0

/-- C7: with the default policy constants (fraction 0.25, cap 5%), the
Kelly stake is non-decreasing in the model probability over [0, 1] for any
fixed market odds above 1.01, it is exactly 0 whenever the full-Kelly
numerator `b*p - q` is nonpositive (implied edge ≤ 0) or the inputs are
degenerate (odds ≤ 1.01 or probability ≤ 0), and it never exceeds 5 (% of
bankroll). -/
theorem C7_kelly_stake_properties (market_odds p1 p2 p3 : ℚ)
    (ho : market_odds > 101/100) (hp1 : 0 ≤ p1) (hp12 : p1 ≤ p2)
    (hp2 : p2 ≤ 1) :
    calculate_stake (1/4) (1/20) p1 market_odds ≤
      calculate_stake (1/4) (1/20) p2 market_odds ∧
    ((market_odds - 1) * p3 - (1 - p3) ≤ 0 →
      calculate_stake (1/4) (1/20) p3 market_odds = 0) ∧
    (∀ (p q : ℚ), q ≤ 101/100 ∨ p ≤ 0 →
      calculate_stake (1/4) (1/20) p q = 0) ∧
    (∀ (p q : ℚ), calculate_stake (1/4) (1/20) p q ≤ 5) := by
  have hb : (0 : ℚ) < market_odds - 1 := by linarith
  refine ⟨?_, ?_, ?_, ?_⟩
  · by_cases hdeg : p1 ≤ 0
    · have h0 : calculate_stake (1/4) (1/20) p1 market_odds = 0 := by
        simp only [calculate_stake]
        rw [if_pos (Or.inr hdeg)]
      rw [h0]
      exact calculate_stake_nonneg _ _ _ _ (by norm_num) (by norm_num)
    · push_neg at hdeg
      have hdeg2 : ¬ (market_odds ≤ 101/100 ∨ p1 ≤ 0) := by
        push_neg
        exact ⟨ho, hdeg⟩
      have hdeg3 : ¬ (market_odds ≤ 101/100 ∨ p2 ≤ 0) := by
        push_neg
        exact ⟨ho, by linarith⟩
      have hfull : ((market_odds - 1) * p1 - (1 - p1)) / (market_odds - 1) ≤
          ((market_odds - 1) * p2 - (1 - p2)) / (market_odds - 1) :=
        (div_le_div_iff_of_pos_right hb).mpr (by nlinarith)
      simp only [calculate_stake]
      rw [if_neg hdeg2, if_neg hdeg3]
      by_cases h1 : ((market_odds - 1) * p1 - (1 - p1)) /
          (market_odds - 1) ≤ 0
      · rw [if_pos h1]
        by_cases h2 : ((market_odds - 1) * p2 - (1 - p2)) /
            (market_odds - 1) ≤ 0
        · rw [if_pos h2]
        · rw [if_neg h2]
          push_neg at h2
          have hrec : 0 ≤ ((market_odds - 1) * p2 - (1 - p2)) /
              (market_odds - 1) * (1/4) := by nlinarith
          have hmin : (0:ℚ) ≤ min (((market_odds - 1) * p2 - (1 - p2)) /
              (market_odds - 1) * (1/4)) (1/20) := le_min hrec (by norm_num)
          have h0 : round2 0 ≤ round2 (min (((market_odds - 1) * p2 -
              (1 - p2)) / (market_odds - 1) * (1/4)) (1/20) * 100) :=
            round2_mono (by linarith)
          have hz : round2 0 = 0 := by norm_num [round2]
          rw [hz] at h0
          exact h0
      · have h2 : ¬ ((market_odds - 1) * p2 - (1 - p2)) /
            (market_odds - 1) ≤ 0 := by
          push_neg at h1 ⊢
          linarith
        rw [if_neg h1, if_neg h2]
        apply round2_mono
        have hminle : min (((market_odds - 1) * p1 - (1 - p1)) /
            (market_odds - 1) * (1/4)) (1/20) ≤
            min (((market_odds - 1) * p2 - (1 - p2)) /
              (market_odds - 1) * (1/4)) (1/20) :=
          min_le_min (by nlinarith) le_rfl
        linarith
  · intro hnum
    have hfle : ((market_odds - 1) * p3 - (1 - p3)) / (market_odds - 1) ≤ 0 :=
      div_nonpos_iff.mpr (Or.inr ⟨hnum, le_of_lt hb⟩)
    simp only [calculate_stake]
    by_cases hdeg : market_odds ≤ 101/100 ∨ p3 ≤ 0
    · rw [if_pos hdeg]
    · rw [if_neg hdeg, if_pos hfle]
  · intro p q hd
    simp only [calculate_stake]
    rw [if_pos hd]
  · intro p q
    simp only [calculate_stake]
    split_ifs with h1 h2
    · norm_num
    · norm_num
    · have hminle : min (((q - 1) * p - (1 - p)) / (q - 1) * (1/4)) (1/20) *
          100 ≤ 5 := by
        have : min (((q - 1) * p - (1 - p)) / (q - 1) * (1/4)) (1/20) ≤
            1/20 := min_le_right _ _
        linarith
      have h5 : round2 5 = 5 := by norm_num [round2, round_eq]
      calc round2 (min (((q - 1) * p - (1 - p)) / (q - 1) * (1/4)) (1/20) *
            100) ≤ round2 5 := round2_mono hminle
        _ = 5 := h5

/-- Witness for C7 at odds 2 and probabilities 1/2 ≤ 3/5 (and a negative
edge probability 1/4 for the zero clause). -/
theorem C7_kelly_stake_properties_witness :
    calculate_stake (1/4) (1/20) (1/2) 2 ≤
      calculate_stake (1/4) (1/20) (3/5) 2 ∧
    (((2:ℚ) - 1) * (1/4) - (1 - 1/4) ≤ 0 →
      calculate_stake (1/4) (1/20) (1/4) 2 = 0) ∧
    (∀ (p q : ℚ), q ≤ 101/100 ∨ p ≤ 0 →
      calculate_stake (1/4) (1/20) p q = 0) ∧
    (∀ (p q : ℚ), calculate_stake (1/4) (1/20) p q ≤ 5) :=
  C7_kelly_stake_properties 2 (1/2) (3/5) (1/4)
    (by norm_num) (by norm_num) (by norm_num) (by norm_num)

/-- C10: for a fixture id not yet tracked by `LatencyGuard`, the first
`check_safety` call reports safe whenever the data timestamp is within
`max_latency` of the current time, regardless of the current score, and it
records the score with `last_event_ts = 0`; the post-event freeze can thus
only trigger from the second observation of that fixture onward. -/
theorem C10_latency_guard_first_observation_safe (g : GuardState)
    (now ts : ℚ) (mid : ℕ) (score : ℤ × ℤ)
    (hfresh : now - ts ≤ g.max_latency)
    (hnew : lookupTrack g.match_states mid = none) :
    check_safety g now mid score ts =
      (true, { g with match_states :=
                 updateTrack g.match_states mid ⟨score, 0⟩ }) := by
  simp only [check_safety]
  rw [if_neg (by rw [not_lt]; linarith), hnew]

/-- Witness for C10: an untracked fixture with 20s-old data against a 30s
latency budget is safe at score 1–0. -/
theorem C10_latency_guard_first_observation_safe_witness :
    check_safety
      { max_latency := 30, freeze_time := 60, match_states := [] }
      100 5 (1, 0) 80 =
      (true, { max_latency := 30, freeze_time := 60
               match_states := [(5, ⟨(1, 0), 0⟩)] }) :=
  C10_latency_guard_first_observation_safe
    { max_latency := 30, freeze_time := 60, match_states := [] }
    100 80 5 (1, 0) (by norm_num) rfl

/-- The three buckets of `calculate_1x2_probs` partition the truncated
grid: their sum equals the product of the two truncated 10-term masses. -/
theorem calculate_1x2_probs_sum {R : Type} [CommSemiring R]
    (h_pmf a_pmf : ℕ → R) (cur_h cur_a : ℤ) :
    (calculate_1x2_probs h_pmf a_pmf cur_h cur_a).1 +
      (calculate_1x2_probs h_pmf a_pmf cur_h cur_a).2.1 +
      (calculate_1x2_probs h_pmf a_pmf cur_h cur_a).2.2 =
    (∑ i ∈ Finset.range 10, h_pmf i) * (∑ j ∈ Finset.range 10, a_pmf j) := by
  simp only [calculate_1x2_probs]
  rw [Finset.sum_filter, Finset.sum_filter, Finset.sum_filter,
    Finset.sum_mul_sum, ← Finset.sum_product', ← Finset.sum_add_distrib,
    ← Finset.sum_add_distrib]
  apply Finset.sum_congr rfl
  intro x _
  rcases lt_trichotomy (cur_h + (x.1 : ℤ)) (cur_a + (x.2 : ℤ)) with h | h | h
  · have hP : ¬ (cur_h + (x.1 : ℤ) > cur_a + (x.2 : ℤ)) := by omega
    have hQ : ¬ (cur_h + (x.1 : ℤ) = cur_a + (x.2 : ℤ)) := by omega
    have hR : cur_a + (x.2 : ℤ) > cur_h + (x.1 : ℤ) := by omega
    simp [hP, hQ, hR]
  · have hP : ¬ (cur_h + (x.1 : ℤ) > cur_a + (x.2 : ℤ)) := by omega
    have hQ : cur_h + (x.1 : ℤ) = cur_a + (x.2 : ℤ) := by omega
    have hR : ¬ (cur_a + (x.2 : ℤ) > cur_h + (x.1 : ℤ)) := by omega
    simp [hP, hQ, hR]
  · have hP : cur_h + (x.1 : ℤ) > cur_a + (x.2 : ℤ) := by omega
    have hQ : ¬ (cur_h + (x.1 : ℤ) = cur_a + (x.2 : ℤ)) := by omega
    have hR : ¬ (cur_a + (x.2 : ℤ) > cur_h + (x.1 : ℤ)) := by omega
    simp [hP, hQ, hR]

/-- C8 counterexample: at the valid rate pair λ_home = λ_away = 5 (and
score 0–0), the three 1X2 probabilities sum to `exp(-10) * T^2` with
`T = Σ_{i<10} 5^i/i!`, which is below `1 - 1e-6` because the 10-goal
truncation discards more than 3% of the Poisson mass per side.  So
P(home) + P(draw) + P(away) is not 1 ± 1e-6 for all valid rates. -/
theorem C8_1x2_sum_truncation_counterexample :
    (calculate_1x2_probs
        (fun i => Real.exp (-5) * 5 ^ i / (Nat.factorial i : ℝ))
        (fun i => Real.exp (-5) * 5 ^ i / (Nat.factorial i : ℝ)) 0 0).1 +
      (calculate_1x2_probs
        (fun i => Real.exp (-5) * 5 ^ i / (Nat.factorial i : ℝ))
        (fun i => Real.exp (-5) * 5 ^ i / (Nat.factorial i : ℝ)) 0 0).2.1 +
      (calculate_1x2_probs
        (fun i => Real.exp (-5) * 5 ^ i / (Nat.factorial i : ℝ))
        (fun i => Real.exp (-5) * 5 ^ i / (Nat.factorial i : ℝ)) 0 0).2.2 <
      1 - 1/1000000 := by
  rw [calculate_1x2_probs_sum]
  have hfac : ∀ i ∈ Finset.range 10,
      Real.exp (-5) * 5 ^ i / (Nat.factorial i : ℝ) =
        Real.exp (-5) * (5 ^ i / (Nat.factorial i : ℝ)) := by
    intro i _
    ring
  rw [Finset.sum_congr rfl hfac, ← Finset.mul_sum]
  have hT : (∑ i ∈ Finset.range 10, (5:ℝ) ^ i / (Nat.factorial i : ℝ)) =
      5214203/36288 := by
    simp [Finset.sum_range_succ]
    norm_num [Nat.factorial]
  rw [hT]
  have h10 : (0:ℝ) < Real.exp 10 := Real.exp_pos 10
  have hrw : Real.exp (-5) * (5214203/36288 : ℝ) *
      (Real.exp (-5) * (5214203/36288 : ℝ)) =
      ((5214203/36288 : ℝ) * (5214203/36288 : ℝ)) / Real.exp 10 := by
    have he : Real.exp (-5) * Real.exp (-5) = (Real.exp 10)⁻¹ := by
      rw [← Real.exp_add, ← Real.exp_neg]
      norm_num
    calc Real.exp (-5) * (5214203/36288 : ℝ) *
        (Real.exp (-5) * (5214203/36288 : ℝ))
        = (Real.exp (-5) * Real.exp (-5)) *
            ((5214203/36288 : ℝ) * (5214203/36288 : ℝ)) := by ring
      _ = (Real.exp 10)⁻¹ *
            ((5214203/36288 : ℝ) * (5214203/36288 : ℝ)) := by rw [he]
      _ = ((5214203/36288 : ℝ) * (5214203/36288 : ℝ)) / Real.exp 10 := by
            rw [inv_mul_eq_div]
  rw [hrw, div_lt_iff₀ h10]
  have hexp1 : (2.7182818283 : ℝ) < Real.exp 1 := Real.exp_one_gt_d9
  have hexp10 : (2.7182818283 : ℝ) ^ 10 < Real.exp 10 := by
    calc (2.7182818283 : ℝ) ^ 10 < (Real.exp 1) ^ 10 := by
          apply pow_lt_pow_left₀ hexp1 (by norm_num) (by norm_num)
      _ = Real.exp 10 := by
          rw [← Real.exp_nat_mul]
          norm_num
  have hkey : (5214203/36288 : ℝ) * (5214203/36288 : ℝ) <
      (1 - 1/1000000) * (2.7182818283 : ℝ) ^ 10 := by
    norm_num
  linarith

/-- C8 (amended): the three values returned by the 1X2 computation sum
exactly to the product of the two truncated 10-term Poisson masses — not to
1: for subprobability weights (nonnegative, total mass at most 1) the sum
is at most 1, and it falls short of 1 by the discarded tail mass, which
exceeds 1e-6 at rates as moderate as λ = 5. -/
theorem C8_1x2_sum_amended (h_pmf a_pmf : ℕ → ℝ) (cur_h cur_a : ℤ)
    (hh : ∀ i, 0 ≤ h_pmf i) (hhs : ∑ i ∈ Finset.range 10, h_pmf i ≤ 1)
    (ha : ∀ i, 0 ≤ a_pmf i) (has : ∑ j ∈ Finset.range 10, a_pmf j ≤ 1) :
    (calculate_1x2_probs h_pmf a_pmf cur_h cur_a).1 +
      (calculate_1x2_probs h_pmf a_pmf cur_h cur_a).2.1 +
      (calculate_1x2_probs h_pmf a_pmf cur_h cur_a).2.2 =
    (∑ i ∈ Finset.range 10, h_pmf i) * (∑ j ∈ Finset.range 10, a_pmf j) ∧
    (calculate_1x2_probs h_pmf a_pmf cur_h cur_a).1 +
      (calculate_1x2_probs h_pmf a_pmf cur_h cur_a).2.1 +
      (calculate_1x2_probs h_pmf a_pmf cur_h cur_a).2.2 ≤ 1 := by
  refine ⟨calculate_1x2_probs_sum h_pmf a_pmf cur_h cur_a, ?_⟩
  rw [calculate_1x2_probs_sum h_pmf a_pmf cur_h cur_a]
  exact mul_le_one₀ hhs (Finset.sum_nonneg (fun j _ => ha j)) has

/-- Witness for the amended C8 with the uniform subprobability weight
1/20 per cell and score 1–0. -/
theorem C8_1x2_sum_amended_witness :
    (calculate_1x2_probs (fun _ => (1/20 : ℝ)) (fun _ => (1/20 : ℝ))
        1 0).1 +
      (calculate_1x2_probs (fun _ => (1/20 : ℝ)) (fun _ => (1/20 : ℝ))
        1 0).2.1 +
      (calculate_1x2_probs (fun _ => (1/20 : ℝ)) (fun _ => (1/20 : ℝ))
        1 0).2.2 =
    (∑ i ∈ Finset.range 10, (1/20 : ℝ)) *
      (∑ j ∈ Finset.range 10, (1/20 : ℝ)) ∧
    (calculate_1x2_probs (fun _ => (1/20 : ℝ)) (fun _ => (1/20 : ℝ))
        1 0).1 +
      (calculate_1x2_probs (fun _ => (1/20 : ℝ)) (fun _ => (1/20 : ℝ))
        1 0).2.1 +
      (calculate_1x2_probs (fun _ => (1/20 : ℝ)) (fun _ => (1/20 : ℝ))
        1 0).2.2 ≤ 1 :=
  C8_1x2_sum_amended (fun _ => (1/20 : ℝ)) (fun _ => (1/20 : ℝ)) 1 0
    (fun _ => by norm_num) (by simp; norm_num) (fun _ => by norm_num)
    (by simp; norm_num)

/-- Every league volatility multiplier is nonnegative. -/
theorem league_vol_lookup_nonneg (l : Option League) :
    0 ≤ league_vol_lookup l := by
  cases l with
  | none => norm_num [league_vol_lookup]
  | some l2 => cases l2 <;> norm_num [league_vol_lookup, LEAGUE_VOLATILITY]

/-- The referee modifier is nonnegative for nonnegative dynamic stats. -/
theorem ref_modifier_lookup_nonneg (rs : Option ℚ) (rn : Option Referee)
    (h : ∀ p ∈ rs, 0 ≤ p) : 0 ≤ ref_modifier_lookup rs rn := by
  cases rs with
  | some pen => exact h pen rfl
  | none =>
    cases rn with
    | none => norm_num [ref_modifier_lookup]
    | some r => cases r <;> norm_num [ref_modifier_lookup, REFEREE_PENALTY]

/-- Every motivation multiplier is nonnegative. -/
theorem motivation_lookup_nonneg (m : Option Motivation) :
    0 ≤ motivation_lookup m := by
  cases m with
  | none => norm_num [motivation_lookup]
  | some m2 => cases m2 <;> norm_num [motivation_lookup, MOTIVATION_FACTORS]

/-- Both components of every style-clash multiplier pair are nonnegative. -/
theorem style_clash_lookup_nonneg (hs bs : Option Style) :
    0 ≤ (style_clash_lookup hs bs).1 ∧ 0 ≤ (style_clash_lookup hs bs).2 := by
  cases hs with
  | none => cases bs <;> norm_num [style_clash_lookup]
  | some s1 =>
    cases bs with
    | none => norm_num [style_clash_lookup]
    | some s2 =>
      cases s1 <;> cases s2 <;>
        norm_num [style_clash_lookup, CLASH_MATRIX]

/-- Every weather multiplier is nonnegative. -/
theorem weather_impact_nonneg (w : Weather) : 0 ≤ WEATHER_IMPACT w := by
  cases w <;> norm_num [WEATHER_IMPACT]

/-- Every fortress bonus is nonnegative. -/
theorem fortress_lookup_nonneg (t : Option FortressTeam) :
    0 ≤ fortress_lookup t := by
  cases t with
  | none => norm_num [fortress_lookup]
  | some t2 => cases t2 <;> norm_num [fortress_lookup, FORTRESS_BONUS]

/-- C9 counterexample: at minute 89 with all-neutral context (no momentum,
no adjustments, base expectation 1.5/1.2 goals), the home rate returned by
`get_remaining_xg` is `1.5 * (1/90) * 1.2 = 0.02`, far below the claimed
lower clamp of 0.1 expected goals remaining: the pipeline applies no
clamping to [0.1, 5.0]. -/
theorem C9_no_clamp_counterexample :
    (get_remaining_xg (3/2) (6/5) 89 1 1 (0, 0) none false false none none
        0 0 none none none none Weather.PERFECT none 0 0 0 0).1 = 1/50 ∧
    ¬ ((1/10 : ℚ) ≤ 1/50) := by
  constructor
  · norm_num [get_remaining_xg, league_vol_lookup, ref_modifier_lookup,
      motivation_lookup, style_clash_lookup, fortress_lookup,
      WEATHER_IMPACT, FATIGUE_MAX_ATT_DROP, FATIGUE_MAX_DEF_LEAK]
  · norm_num

/-- C9 (amended): `get_remaining_xg` performs no clamping to [0.1, 5.0];
what does hold is that for minute ≥ 90 both rates are exactly 0, and for
nonnegative base rates, momentum factors, transformer momenta and xT, and
fatigue levels within [0, 1] (with nonnegative dynamic referee stats),
both returned rates are nonnegative. -/
theorem C9_remaining_xg_amended (base_home_xg base_away_xg : ℚ)
    (minute : ℤ) (home_factor away_factor : ℚ) (current_score : ℤ × ℤ)
    (league_name : Option League)
    (home_missing_keys away_missing_keys : Bool)
    (referee_name : Option Referee) (referee_stats : Option ℚ)
    (home_fatigue away_fatigue : ℚ)
    (home_motivation_type away_motivation_type : Option Motivation)
    (home_style away_style : Option Style) (weather_type : Weather)
    (home_team_name : Option FortressTeam)
    (home_transformer_mom away_transformer_mom : ℚ) (home_xt away_xt : ℚ)
    (hbh : 0 ≤ base_home_xg) (hba : 0 ≤ base_away_xg)
    (hhf : 0 ≤ home_factor) (haf : 0 ≤ away_factor)
    (hf1 : 0 ≤ home_fatigue) (hf2 : home_fatigue ≤ 1)
    (hf3 : 0 ≤ away_fatigue) (hf4 : away_fatigue ≤ 1)
    (ht1 : 0 ≤ home_transformer_mom) (ht2 : 0 ≤ away_transformer_mom)
    (hx1 : 0 ≤ home_xt) (hx2 : 0 ≤ away_xt)
    (href : ∀ p ∈ referee_stats, 0 ≤ p) :
    (minute ≥ 90 →
      get_remaining_xg base_home_xg base_away_xg minute home_factor
        away_factor current_score league_name home_missing_keys
        away_missing_keys referee_name referee_stats home_fatigue
        away_fatigue home_motivation_type away_motivation_type home_style
        away_style weather_type home_team_name home_transformer_mom
        away_transformer_mom home_xt away_xt = (0, 0)) ∧
    0 ≤ (get_remaining_xg base_home_xg base_away_xg minute home_factor
        away_factor current_score league_name home_missing_keys
        away_missing_keys referee_name referee_stats home_fatigue
        away_fatigue home_motivation_type away_motivation_type home_style
        away_style weather_type home_team_name home_transformer_mom
        away_transformer_mom home_xt away_xt).1 ∧
    0 ≤ (get_remaining_xg base_home_xg base_away_xg minute home_factor
        away_factor current_score league_name home_missing_keys
        away_missing_keys referee_name referee_stats home_fatigue
        away_fatigue home_motivation_type away_motivation_type home_style
        away_style weather_type home_team_name home_transformer_mom
        away_transformer_mom home_xt away_xt).2 := by
  simp only [get_remaining_xg]
  by_cases htime : (90 : ℤ) - minute ≤ 0
  · rw [if_pos htime]
    exact ⟨fun _ => rfl, le_rfl, le_rfl⟩
  · rw [if_neg htime]
    push_neg at htime
    have htq : (0 : ℚ) ≤ ((90 - minute : ℤ) : ℚ) / 90 := by
      apply div_nonneg ?_ (by norm_num)
      exact_mod_cast le_of_lt htime
    have hint : (0:ℚ) ≤
        (if minute > 75 then (6/5 : ℚ)
         else if minute > 40 ∧ minute ≤ 45 then 11/10 else 1) := by
      split_ifs <;> norm_num
    have hgsh : (0:ℚ) ≤
        (if minute > 60 then
          (if current_score.1 - current_score.2 < 0 then
            (if current_score.1 - current_score.2 = -1 then (23/20 : ℚ)
             else if current_score.1 - current_score.2 = -2 then 11/10
             else 1)
           else if current_score.1 - current_score.2 > 0 then 9/10 else 1)
         else 1) := by
      split_ifs <;> norm_num
    have hgsa : (0:ℚ) ≤
        (if minute > 60 then
          (if current_score.1 - current_score.2 < 0 then (9/10 : ℚ)
           else if current_score.1 - current_score.2 > 0 then
            (if current_score.1 - current_score.2 = 1 then 23/20
             else if current_score.1 - current_score.2 = 2 then 11/10
             else 1)
           else 1)
         else 1) := by
      split_ifs <;> norm_num
    have hsph : (0:ℚ) ≤ (if home_missing_keys then KEY_PLAYER_PENALTY
        else 1) := by
      split_ifs <;> norm_num [KEY_PLAYER_PENALTY]
    have hspa : (0:ℚ) ≤ (if away_missing_keys then KEY_PLAYER_PENALTY
        else 1) := by
      split_ifs <;> norm_num [KEY_PLAYER_PENALTY]
    have hatth : (0:ℚ) ≤ 1 - home_fatigue * (1 - FATIGUE_MAX_ATT_DROP) := by
      norm_num [FATIGUE_MAX_ATT_DROP]
      linarith
    have hdefh : (0:ℚ) ≤ 1 + home_fatigue * (FATIGUE_MAX_DEF_LEAK - 1) := by
      norm_num [FATIGUE_MAX_DEF_LEAK]
      linarith
    have hatta : (0:ℚ) ≤ 1 - away_fatigue * (1 - FATIGUE_MAX_ATT_DROP) := by
      norm_num [FATIGUE_MAX_ATT_DROP]
      linarith
    have hdefa : (0:ℚ) ≤ 1 + away_fatigue * (FATIGUE_MAX_DEF_LEAK - 1) := by
      norm_num [FATIGUE_MAX_DEF_LEAK]
      linarith
    have htmh : (0:ℚ) ≤ 1 + min home_transformer_mom 10 / 50 := by
      have h0 : 0 ≤ min home_transformer_mom 10 :=
        le_min ht1 (by norm_num)
      linarith
    have htma : (0:ℚ) ≤ 1 + min away_transformer_mom 10 / 50 := by
      have h0 : 0 ≤ min away_transformer_mom 10 :=
        le_min ht2 (by norm_num)
      linarith
    have hxth : (0:ℚ) ≤ 1 + min home_xt 5 / 10 := by
      have h0 : 0 ≤ min home_xt 5 := le_min hx1 (by norm_num)
      linarith
    have hxta : (0:ℚ) ≤ 1 + min away_xt 5 / 10 := by
      have h0 : 0 ≤ min away_xt 5 := le_min hx2 (by norm_num)
      linarith
    refine ⟨fun hm => absurd htime (by omega), ?_, ?_⟩
    · dsimp only
      exact mul_nonneg (mul_nonneg (mul_nonneg (mul_nonneg (mul_nonneg
        (mul_nonneg (mul_nonneg (mul_nonneg (mul_nonneg (mul_nonneg
        (mul_nonneg (mul_nonneg (mul_nonneg (mul_nonneg (mul_nonneg
        hbh htq) hhf) hint) hgsh) (league_vol_lookup_nonneg _)) hsph)
        (ref_modifier_lookup_nonneg _ _ href)) hatth) hdefa)
        (motivation_lookup_nonneg _)) (style_clash_lookup_nonneg _ _).1)
        (weather_impact_nonneg _)) (fortress_lookup_nonneg _)) htmh) hxth
    · dsimp only
      exact mul_nonneg (mul_nonneg (mul_nonneg (mul_nonneg (mul_nonneg
        (mul_nonneg (mul_nonneg (mul_nonneg (mul_nonneg (mul_nonneg
        (mul_nonneg (mul_nonneg (mul_nonneg (mul_nonneg
        hba htq) haf) hint) hgsa) (league_vol_lookup_nonneg _)) hspa)
        (ref_modifier_lookup_nonneg _ _ href)) hatta) hdefh)
        (motivation_lookup_nonneg _)) (style_clash_lookup_nonneg _ _).2)
        (weather_impact_nonneg _)) htma) hxta

/-- Witness for the amended C9 at minute 90 and at the neutral context. -/
theorem C9_remaining_xg_amended_witness :
    ((90 : ℤ) ≥ 90 →
      get_remaining_xg (3/2) (6/5) 90 1 1 (0, 0) none false false none
        none 0 0 none none none none Weather.PERFECT none 0 0 0 0 =
        (0, 0)) ∧
    0 ≤ (get_remaining_xg (3/2) (6/5) 90 1 1 (0, 0) none false false none
        none 0 0 none none none none Weather.PERFECT none 0 0 0 0).1 ∧
    0 ≤ (get_remaining_xg (3/2) (6/5) 90 1 1 (0, 0) none false false none
        none 0 0 none none none none Weather.PERFECT none 0 0 0 0).2 :=
  C9_remaining_xg_amended (3/2) (6/5) 90 1 1 (0, 0) none false false none
    none 0 0 none none none none Weather.PERFECT none 0 0 0 0
    (by norm_num) (by norm_num) (by norm_num) (by norm_num) (by norm_num)
    (by norm_num) (by norm_num) (by norm_num) (by norm_num) (by norm_num)
    (by norm_num) (by norm_num) (by intro p hp; simp at hp)

end FootballAI
